import Mathlib

/-!
# gotasker: a verification development of `main.go`

A shallow embedding of the HTTP handlers of `main.go` (Register, Login,
AuthMiddleware, GetTasks, UpdateTask, DeleteTask, GetTaskStats,
GetDueSoonTasks and the unrouted GetTasksWithPagination) over an explicit
relational store, followed by theorems about them.

Conventions of the embedding

* Go `string` is `String`; byte slicing of an ASCII prefix is done on the
  character list (`.data`), which agrees with the byte view there.
* Go `int`, `int64` are `Int` with an explicit two's complement wrap to 64 bits
  (`wrap64`) after every arithmetic operation; `uint` ids are `Nat`.
* `time.Time` values held in rows are nanoseconds relative to the Unix epoch
  (`Int`); readings of the wall clock (`time.Now()`) are `Nat` nanoseconds
  since the epoch.
* The libraries the handlers call (the store behind GORM, jwt-go, bcrypt) are
  not part of `main.go`. GORM's documented query semantics (soft-delete scope of
  `gorm.Model`, `First`, `Count`, `Offset`, `Limit`) are embedded directly; text
  matching and coercion inside the store, the order the store gives to rows of
  equal `created_at` in each `ORDER BY created_at` query, token encoding and
  signing, and password hashing are parameters (`Postgres`, `JwtLib`, `Bcrypt`).
-/

namespace Gotasker

/-! ## Machine integers and `strconv.Atoi` -/

/-- Largest value of a 64-bit Go `int`. -/
def maxInt64 : Int := 9223372036854775807

/-- Smallest value of a 64-bit Go `int`. -/
def minInt64 : Int := -9223372036854775808

/-- Largest value of a Go `uint64`. -/
def maxUint64 : Nat := 18446744073709551615

/-- Two's complement wrap of an exact integer result to 64 bits. -/
def wrap64 (x : Int) : Int :=
  (x + 9223372036854775808) % 18446744073709551616 - 9223372036854775808

/-- Go integer division `a / b` for `b ≠ 0`: truncation toward zero, wrapped. -/
def goDiv (a b : Int) : Int := wrap64 (Int.tdiv a b)

/-- Byte test `'0' <= c && c <= '9'`. -/
def isDigit (c : Char) : Bool := decide ('0' ≤ c) && decide (c ≤ '9')

/-- Value `c - '0'` of a digit. -/
def digitVal (c : Char) : Nat := c.toNat - 48

/-- The digit loop of `strconv.ParseUint(s, 10, 64)`: `none` is a syntax error;
a range error returns `maxUint64` (the loop stops at the digit where the
overflow shows, before looking at the rest), which `ParseInt` then clamps. -/
def parseUintLoop : List Char → Nat → Option Nat
  | [], n => some n
  | c :: cs, n =>
    if !isDigit c then none
    else if n ≥ maxUint64 / 10 + 1 then some maxUint64
    else if n * 10 + digitVal c > maxUint64 then some maxUint64
    else parseUintLoop cs (n * 10 + digitVal c)

/-- The slow path `strconv.ParseInt(s, 10, 0)`: value and whether `err != nil`. -/
def ParseInt (s : List Char) : Int × Bool :=
  let neg := s.head? = some '-'
  let body := match s with
    | '+' :: r => r
    | '-' :: r => r
    | cs => cs
  if s = [] ∨ body = [] then (0, true)
  else match parseUintLoop body 0 with
    | none => (0, true)
    | some un =>
      if !neg && decide (un ≥ 9223372036854775808) then (maxInt64, true)
      else if neg && decide (un > 9223372036854775808) then (minInt64, true)
      else (if neg then -(un : Int) else (un : Int), false)

/-- The fast path of `strconv.Atoi` (fewer than 19 bytes, so no overflow). -/
def atoiFast (s : List Char) : Int × Bool :=
  let neg := s.head? = some '-'
  let body := match s with
    | '+' :: r => r
    | '-' :: r => r
    | cs => cs
  if body = [] then (0, true)
  else if !body.all isDigit then (0, true)
  else
    let n : Int := (body.foldl (fun n ch => n * 10 + digitVal ch) 0 : Nat)
    (if neg then -n else n, false)

/-- Go `strconv.Atoi` on a 64-bit platform: the returned `int` and whether the
returned error is non-nil. -/
def strconvAtoi (s : String) : Int × Bool :=
  if 0 < s.utf8ByteSize ∧ s.utf8ByteSize < 19 then atoiFast s.data else ParseInt s.data

/-- The value of `n, _ := strconv.Atoi(s)`: the error is discarded. -/
def Atoi (s : String) : Int := (strconvAtoi s).1

/-! ## Time -/

/-- Nanoseconds in a second. -/
def nsPerSecond : Int := 1000000000

/-- Nanoseconds in a UTC day. -/
def nsPerDay : Int := 86400 * nsPerSecond

/-- `time.Hour` in nanoseconds. -/
def hour : Nat := 3600 * 1000000000

/-- `time.Minute` in nanoseconds. -/
def minute : Nat := 60 * 1000000000

/-- `Time.Unix()`: whole seconds since the epoch (rounded toward minus infinity). -/
def unix (t : Int) : Int := t / nsPerSecond

/-- Start of the UTC day an instant falls in (day granularity). -/
def truncDay (t : Int) : Int := t - t % nsPerDay

/-- Leap year test of Go's `time` package. -/
def isLeap (year : Int) : Bool :=
  year % 4 == 0 && (year % 100 != 0 || year % 400 == 0)

/-- Days in a month, `daysIn` of Go's `time` package. -/
def daysIn (month year : Int) : Int :=
  if month = 2 then (if isLeap year then 29 else 28)
  else if month = 4 ∨ month = 6 ∨ month = 9 ∨ month = 11 then 30
  else 31

/-- Days from 1970-01-01 to the civil date `y-m-d` (proleptic Gregorian). -/
def daysFromCivil (y m d : Int) : Int :=
  let y1 := if m ≤ 2 then y - 1 else y
  let era := y1 / 400
  let yoe := y1 - era * 400
  let mp := (m + 9) % 12
  let doy := (153 * mp + 2) / 5 + d - 1
  let doe := yoe * 365 + yoe / 4 - yoe / 100 + doy
  era * 146097 + doe - 719468

/-- Go `time.Parse("2006-01-02", due)`: four digits, `-`, two digits, `-`, two
digits and nothing else, month in 1..12, day within the month; the result is
midnight UTC of that date. `none` is a parse error. -/
def timeParseDate (due : String) : Option Int :=
  match due.data with
  | [y1, y2, y3, y4, '-', m1, m2, '-', d1, d2] =>
    if [y1, y2, y3, y4, m1, m2, d1, d2].all isDigit then
      let year : Int := (digitVal y1 * 1000 + digitVal y2 * 100 + digitVal y3 * 10 + digitVal y4 : Nat)
      let month : Int := (digitVal m1 * 10 + digitVal m2 : Nat)
      let day : Int := (digitVal d1 * 10 + digitVal d2 : Nat)
      if month ≤ 0 ∨ 12 < month then none
      else if day < 1 ∨ day > daysIn month year then none
      else some (daysFromCivil year month day * nsPerDay)
    else none
  | _ => none

/-! ## Data model -/

/-- Row of table `users`: `gorm.Model` plus `Username`, `Password`, `Theme`. -/
structure User where
  ID : Nat
  CreatedAt : Int
  UpdatedAt : Int
  DeletedAt : Option Int
  Username : String
  Password : String
  Theme : String
deriving DecidableEq, Repr

/-- Row of table `tasks`: `gorm.Model` plus the task fields. `DueDate` is `none`
when the column is NULL (`gorm:"default:null"`). -/
structure Task where
  ID : Nat
  CreatedAt : Int
  UpdatedAt : Int
  DeletedAt : Option Int
  Title : String
  UserID : Nat
  Status : String
  DueDate : Option Int
  Priority : String
deriving DecidableEq, Repr

/-- The relational store reached through the package variable `db`: the two
migrated tables and the serial counter of `users.id`. -/
structure Store where
  users : List User
  tasks : List Task
  userSeq : Nat
deriving DecidableEq, Repr

/-- Direction spliced into `ORDER BY created_at`; the handler documents the two
values `asc` and `desc`, and only these are modelled. -/
inductive SortDir where
  | asc
  | desc
deriving DecidableEq, Repr

/-- What the handlers leave to the database engine: matching of a `title ILIKE`
pattern, the coercion of a bound text parameter to an integer key, and the
arrangement of the selected rows by `ORDER BY created_at <sort>`. That
arrangement is some permutation of the rows ordered by `created_at` in the
direction asked; SQL leaves the order among rows with equal `created_at` open,
and since every page is a query of its own the engine may settle it differently
from one `OFFSET`/`LIMIT` to the next. -/
structure Postgres where
  ilike : (value pattern : String) → Bool
  int8in : String → Option Nat
  orderByCreatedAt : (sort : SortDir) → (offset limit : Int) → List Task → List Task
  order_perm : ∀ sort offset limit rows, (orderByCreatedAt sort offset limit rows).Perm rows
  order_asc : ∀ offset limit rows,
    (orderByCreatedAt SortDir.asc offset limit rows).Sorted
      (fun a b => a.CreatedAt ≤ b.CreatedAt)
  order_desc : ∀ offset limit rows,
    (orderByCreatedAt SortDir.desc offset limit rows).Sorted
      (fun a b => b.CreatedAt ≤ a.CreatedAt)

/-- Query string of `GET /tasks`. `page`, `limit` and `sort` are read with
`DefaultQuery` (`none` = key absent); the others with `Query` (absent = `""`). -/
structure ListQuery where
  page : Option String
  limit : Option String
  search : String
  sort : Option SortDir
  status : String
  due : String
deriving DecidableEq, Repr

/-- JSON bodies written by the handlers. -/
inductive Body where
  | error (msg : String)
  | message (msg : String)
  | token (tokenString : String)
  | task (t : Task)
  | tasks (ts : List Task)
  | page (tasks : List Task) (total page limit total_pages : Int)
  | stats (total_tasks completed pending : Int)
deriving DecidableEq, Repr

/-- Outcome of a handler: a JSON response with its status, or a run-time panic
(which gin's recovery turns into a bare 500). -/
inductive Response where
  | json (status : Nat) (body : Body)
  | panicked (msg : String)
deriving DecidableEq, Repr

/-! ## GORM query stages -/

/-- Soft-delete scope that GORM adds to every query on a `gorm.Model` table:
`deleted_at IS NULL`. -/
def Task.live (t : Task) : Bool := t.DeletedAt.isNone

/-- The chain of `Where` clauses built by `GetTasks` (lines 187-200), under the
soft-delete scope. -/
def taskFilter (pg : Postgres) (userID : Nat) (q : ListQuery) (t : Task) : Bool :=
  t.live && decide (t.UserID = userID)
    && (if q.search ≠ "" then pg.ilike t.Title ("%" ++ q.search ++ "%") else true)
    && (if q.status ≠ "" then decide (t.Status = q.status) else true)
    && (if q.due ≠ "" then
          match timeParseDate q.due with
          | some dueDate => decide (t.DueDate = some dueDate)
          | none => true
        else true)

instance : IsTotal Task (fun a b => a.CreatedAt ≤ b.CreatedAt) :=
  ⟨fun a b => le_total a.CreatedAt b.CreatedAt⟩

instance : IsTrans Task (fun a b => a.CreatedAt ≤ b.CreatedAt) :=
  ⟨fun _ _ _ h1 h2 => le_trans h1 h2⟩

instance : IsTotal Task (fun a b => b.CreatedAt ≤ a.CreatedAt) :=
  ⟨fun a b => le_total b.CreatedAt a.CreatedAt⟩

instance : IsTrans Task (fun a b => b.CreatedAt ≤ a.CreatedAt) :=
  ⟨fun _ _ _ h1 h2 => le_trans h2 h1⟩

/-- The rows sorted by `created_at` in a direction, rows with equal `created_at`
kept in table order. This is one of the arrangements `ORDER BY created_at` may
produce, and the only one when no two rows share a `created_at`. -/
def sortByCreatedAt (sort : SortDir) (rows : List Task) : List Task :=
  match sort with
  | SortDir.asc => rows.insertionSort (fun a b => a.CreatedAt ≤ b.CreatedAt)
  | SortDir.desc => rows.insertionSort (fun a b => b.CreatedAt ≤ a.CreatedAt)

/-- `Offset(offset)`: GORM writes the OFFSET clause only for a positive value. -/
def applyOffset (offset : Int) (rows : List Task) : List Task :=
  if offset > 0 then rows.drop offset.toNat else rows

/-- `Limit(limit)`: a positive value bounds the result, a negative one means no
LIMIT clause. (For 0 the clause depends on the GORM release; `GetTasks` panics
before it can show the rows, see `GetTasks`.) -/
def applyLimit (limit : Int) (rows : List Task) : List Task :=
  if limit ≥ 0 then rows.take limit.toNat else rows

/-- Lines 175-179 of `GetTasks`: the page, the limit and the offset handed to
the query. -/
def pagination (q : ListQuery) : Int × Int × Int :=
  let pageStr := q.page.getD "1"
  let limitStr := q.limit.getD "10"
  let page := Atoi pageStr
  let limit := Atoi limitStr
  let offset := wrap64 (wrap64 (page - 1) * limit)
  (page, limit, offset)

/-- The rows selected by the query of `GetTasks` before ordering and paging. -/
def matchingTasks (pg : Postgres) (s : Store) (userID : Nat) (q : ListQuery) : List Task :=
  s.tasks.filter (taskFilter pg userID q)

/-- The full filtered, sorted result list of a query of `GetTasks`: the
matching rows sorted by `created_at` in the direction of the query. -/
def sortedTasks (pg : Postgres) (s : Store) (userID : Nat) (q : ListQuery) : List Task :=
  sortByCreatedAt (q.sort.getD SortDir.desc) (matchingTasks pg s userID q)

/-- `query.Count(&total)` of `GetTasks`. -/
def countTasks (pg : Postgres) (s : Store) (userID : Nat) (q : ListQuery) : Int :=
  ((matchingTasks pg s userID q).length : Int)

/-- `query.Order(...).Offset(offset).Limit(limit).Find(&tasks)` of `GetTasks`:
the offset and the limit cut the arrangement the engine gives for this query. -/
def findTasks (pg : Postgres) (s : Store) (userID : Nat) (q : ListQuery) : List Task :=
  let (_, limit, offset) := pagination q
  applyLimit limit (applyOffset offset
    (pg.orderByCreatedAt (q.sort.getD SortDir.desc) offset limit (matchingTasks pg s userID q)))

/-- Handler `GetTasks` (lines 171-215). The division in `total_pages` panics
when `limit` is 0. -/
def GetTasks (pg : Postgres) (s : Store) (userID : Nat) (q : ListQuery) : Response :=
  let (page, limit, _) := pagination q
  let total := countTasks pg s userID q
  let tasks := findTasks pg s userID q
  if limit = 0 then Response.panicked "runtime error: integer divide by zero"
  else Response.json 200
    (Body.page tasks total page limit (goDiv (wrap64 (wrap64 (total + limit) - 1)) limit))

/-- Lines 304-317 of the unrouted handler `GetTasksWithPagination`: page and
limit with their guards, and the offset. -/
def paginationGuarded (page limit : Option String) : Int × Int × Int :=
  let pageStr := page.getD "1"
  let limitStr := limit.getD "10"
  let (p, perr) := strconvAtoi pageStr
  let p := if perr ∨ p < 1 then 1 else p
  let (l, lerr) := strconvAtoi limitStr
  let l := if lerr ∨ l < 1 then 10 else l
  (p, l, wrap64 (wrap64 (p - 1) * l))

/-- Handler `GetTasksWithPagination` (lines 300-323, not routed): the live rows
of the user in table order, paged with the guarded values. -/
def GetTasksWithPagination (s : Store) (userID : Nat) (page limit : Option String) : Response :=
  let (_, l, offset) := paginationGuarded page limit
  Response.json 200 (Body.tasks
    (applyLimit l (applyOffset offset
      (s.tasks.filter (fun t => t.live && decide (t.UserID = userID))))))

/-! ## Task handlers -/

/-- `db.Where("id = ? AND user_id = ?", taskID, userID).First(&task)`: the
live row with that key and owner, lowest primary key first; `none` stands for
a non-nil `Error` (no row, or a key text the engine rejects). -/
def firstOwnedTask (pg : Postgres) (s : Store) (taskID : String) (userID : Nat) : Option Task :=
  match pg.int8in taskID with
  | none => none
  | some id =>
    ((s.tasks.filter (fun t => t.live && decide (t.ID = id) && decide (t.UserID = userID))).insertionSort
      (fun a b => a.ID ≤ b.ID)).head?

/-- JSON body of `PUT /tasks/:id`. -/
structure TaskInput where
  Title : String
  Status : String
  DueDate : Int
deriving DecidableEq, Repr

/-- `db.Save(&task)` for a task with a primary key: every column of the live
row with that key is overwritten. -/
def saveTask (s : Store) (task : Task) : Store :=
  { s with tasks := s.tasks.map (fun r => if r.ID = task.ID ∧ r.live then task else r) }

/-- `db.Model(&task).Update("deleted_at", now)`: sets the deletion marker (and
`updated_at`) of the live row with the key of `task`. -/
def markDeleted (s : Store) (task : Task) (now : Nat) : Store :=
  { s with tasks := s.tasks.map (fun r =>
      if r.ID = task.ID ∧ r.live then { r with DeletedAt := some (now : Int), UpdatedAt := (now : Int) }
      else r) }

/-- Handler `UpdateTask` (lines 254-280). `body` is the outcome of
`ShouldBindJSON`: the bound input or the text of the binding error. -/
def UpdateTask (pg : Postgres) (s : Store) (userID : Nat) (taskID : String)
    (body : Except String TaskInput) (now : Nat) : Response × Store :=
  match firstOwnedTask pg s taskID userID with
  | none => (Response.json 404 (Body.error "task not found"), s)
  | some task =>
    match body with
    | Except.error err => (Response.json 400 (Body.error err), s)
    | Except.ok input =>
      let task := { task with
        Title := input.Title, Status := input.Status, DueDate := some input.DueDate,
        UpdatedAt := (now : Int) }
      (Response.json 200 (Body.task task), saveTask s task)

/-- Handler `DeleteTask` (lines 282-293). -/
def DeleteTask (pg : Postgres) (s : Store) (userID : Nat) (taskID : String) (now : Nat) :
    Response × Store :=
  match firstOwnedTask pg s taskID userID with
  | none => (Response.json 404 (Body.error "task not found"), s)
  | some task => (Response.json 200 (Body.message "task deleted"), markDeleted s task now)

/-- `db.Model(&Task{}).Where("user_id = ?", userID).Count(&total)`. -/
def countOwned (s : Store) (userID : Nat) : Int :=
  ((s.tasks.filter (fun t => t.live && decide (t.UserID = userID))).length : Int)

/-- `db.Model(&Task{}).Where("user_id = ? AND status = ?", userID, status).Count(..)`. -/
def countByStatus (s : Store) (userID : Nat) (status : String) : Int :=
  ((s.tasks.filter
    (fun t => t.live && decide (t.UserID = userID) && decide (t.Status = status))).length : Int)

/-- Handler `GetTaskStats` (lines 325-343); `userID` is the result of
`c.Get("userID")`. -/
def GetTaskStats (s : Store) (userID : Option Nat) : Response :=
  match userID with
  | none => Response.json 401 (Body.error "Unauthorized")
  | some uid =>
    Response.json 200
      (Body.stats (countOwned s uid) (countByStatus s uid "completed") (countByStatus s uid "pending"))

/-- The query of `GetDueSoonTasks`: live rows of the user with
`due_date BETWEEN now AND now + 72h`, ordered by `due_date ASC`. Rows with
equal due dates are given in table order here; SQL leaves their order open,
and no property below depends on it. -/
def dueSoon (s : Store) (uid : Nat) (now : Nat) : List Task :=
  let threeDaysLater : Int := (now : Int) + 72 * (hour : Int)
  (s.tasks.filter (fun t => t.live && decide (t.UserID = uid) &&
      (match t.DueDate with
       | some d => decide ((now : Int) ≤ d) && decide (d ≤ threeDaysLater)
       | none => false))).insertionSort
    (fun a b => a.DueDate.getD 0 ≤ b.DueDate.getD 0)

/-- Handler `GetDueSoonTasks` (lines 345-366). The store of this embedding
answers every query, so the 500 branch of a failed `Find` has no input. -/
def GetDueSoonTasks (s : Store) (userID : Option Nat) (now : Nat) : Response :=
  match userID with
  | none => Response.json 401 (Body.error "Unauthorized")
  | some uid => Response.json 200 (Body.tasks (dueSoon s uid now))

/-! ## Registration and login -/

/-- The two calls into `golang.org/x/crypto/bcrypt`: the hash produced for a
password at a cost (the empty string when the call fails), and whether
`CompareHashAndPassword` returns a nil error. -/
structure Bcrypt where
  generateFromPassword : (password : String) → (cost : Nat) → String
  compareHashAndPassword : (hash password : String) → Bool

/-- The zero `time.Time` (January 1, year 1, UTC). -/
def zeroTime : Int := -62135596800 * nsPerSecond

/-- The zero value of `User`. -/
def zeroUser : User :=
  { ID := 0, CreatedAt := zeroTime, UpdatedAt := zeroTime, DeletedAt := none,
    Username := "", Password := "", Theme := "" }

/-- `db.Create(&input)` on table `users`: zero `ID` takes the next serial value,
zero timestamps take `now`, an empty theme takes the column default; the insert
is rejected when the primary key or the unique `username` index already holds
the value. The serial value is consumed either way. -/
def createUser (s : Store) (input : User) (now : Nat) : Store :=
  let id := if input.ID = 0 then s.userSeq + 1 else input.ID
  let seq := if input.ID = 0 then s.userSeq + 1 else s.userSeq
  let row : User := { input with
    ID := id,
    CreatedAt := if input.CreatedAt = zeroTime then (now : Int) else input.CreatedAt,
    UpdatedAt := if input.UpdatedAt = zeroTime then (now : Int) else input.UpdatedAt,
    Theme := if input.Theme = "" then "light" else input.Theme }
  if s.users.any (fun u => decide (u.Username = input.Username)) ||
      s.users.any (fun u => decide (u.ID = id)) then
    { s with userSeq := seq }
  else { s with users := s.users ++ [row], userSeq := seq }

/-- Handler `Register` (lines 111-121). `body` is the outcome of
`ShouldBindJSON(&input)`. The result of `db.Create` is not inspected. -/
def Register (bc : Bcrypt) (s : Store) (body : Except String User) (now : Nat) :
    Response × Store :=
  match body with
  | Except.error err => (Response.json 400 (Body.error err), s)
  | Except.ok input =>
    let hash := bc.generateFromPassword input.Password 10
    let input := { input with Password := hash }
    (Response.json 200 (Body.message "registered"), createUser s input now)

/-- Claims carried by a token: `UserID` and the three time fields of
`jwt.StandardClaims` that `Valid()` looks at (Unix seconds, 0 = unset). -/
structure Claims where
  UserID : Nat
  ExpiresAt : Int
  IssuedAt : Int
  NotBefore : Int
deriving DecidableEq, Repr

/-- The parts of `github.com/dgrijalva/jwt-go` that depend on encoding and on
the HMAC: serialising and signing claims, splitting and decoding a token
string, and checking its signature. The laws are those of the compact JWS
form: a signed token decodes to its claims and verifies under its key, a
token that decodes has exactly three dot-separated segments, and a signed
token (base64url segments) holds no space. -/
structure JwtLib where
  signedString : (key : String) → Claims → String
  parseUnverified : String → Option Claims
  verify : (key : String) → (tokenString : String) → Bool
  parse_signed : ∀ key claims, parseUnverified (signedString key claims) = some claims
  verify_signed : ∀ key claims, verify key (signedString key claims) = true
  three_segments : ∀ t claims, parseUnverified t = some claims → t.data.count '.' = 2
  no_space : ∀ key claims, ' ' ∉ (signedString key claims).data

/-- Package variable `jwtKey`. -/
def jwtKey : String := "secret"

/-- `db.Where("username = ?", input.Username).First(&user)`: `user` keeps its
zero value when no live row matches. -/
def firstUserByName (s : Store) (username : String) : User :=
  ((s.users.filter (fun u => u.DeletedAt.isNone && decide (u.Username = username))).insertionSort
    (fun a b => a.ID ≤ b.ID)).head?.getD zeroUser

/-- The claims `Login` signs at instant `now` for a user id. -/
def loginClaims (userID : Nat) (now : Nat) : Claims :=
  { UserID := userID, ExpiresAt := unix ((now : Int) + (hour : Int)), IssuedAt := 0, NotBefore := 0 }

/-- Handler `Login` (lines 123-147). -/
def Login (lib : JwtLib) (bc : Bcrypt) (s : Store) (body : Except String User) (now : Nat) :
    Response :=
  match body with
  | Except.error err => Response.json 400 (Body.error err)
  | Except.ok input =>
    let user := firstUserByName s input.Username
    if !bc.compareHashAndPassword user.Password input.Password then
      Response.json 401 (Body.error "invalid credentials")
    else
      Response.json 200 (Body.token (lib.signedString jwtKey (loginClaims user.ID now)))

/-! ## Token verification and the middleware -/

/-- The validation error of jwt-go, by kind. -/
inductive JwtError where
  | malformed
  | invalid (expired issuedInFuture notValidYet badSignature : Bool)
deriving DecidableEq, Repr

/-- `verifyExp(exp, now, false)` of jwt-go: an unset expiry is accepted. -/
def verifyExp (exp now : Int) : Bool := if exp = 0 then true else decide (now ≤ exp)

/-- `verifyIat(iat, now, false)` of jwt-go. -/
def verifyIat (iat now : Int) : Bool := if iat = 0 then true else decide (now ≥ iat)

/-- `verifyNbf(nbf, now, false)` of jwt-go. -/
def verifyNbf (nbf now : Int) : Bool := if nbf = 0 then true else decide (now ≥ nbf)

/-- `jwt.ParseWithClaims(tokenString, claims, keyFunc)` at instant `now`, with
the key function of the middleware (it returns `jwtKey`): decode, validate the
claims against the clock, check the signature. `Except.ok` is `err == nil`
with `token.Valid`. -/
def ParseWithClaims (lib : JwtLib) (tokenString : String) (key : String) (now : Nat) :
    Except JwtError Claims :=
  match lib.parseUnverified tokenString with
  | none => Except.error JwtError.malformed
  | some claims =>
    let nowS := unix (now : Int)
    let expired := !verifyExp claims.ExpiresAt nowS
    let issuedInFuture := !verifyIat claims.IssuedAt nowS
    let notValidYet := !verifyNbf claims.NotBefore nowS
    let badSignature := !lib.verify key tokenString
    if expired || issuedInFuture || notValidYet || badSignature then
      Except.error (JwtError.invalid expired issuedInFuture notValidYet badSignature)
    else Except.ok claims

/-- The part of `gin.Context` the middleware touches: the `Authorization`
header (`""` when absent), the key/value pairs of `Set`, the abort flag and the
response written so far. -/
structure Context where
  authorization : String
  keys : List (String × Nat)
  aborted : Bool
  response : Option Response
deriving DecidableEq, Repr

/-- `c.Set(key, value)`. -/
def Context.set (c : Context) (key : String) (value : Nat) : Context :=
  { c with keys := (key, value) :: c.keys.filter (fun kv => kv.1 ≠ key) }

/-- `c.JSON(401, gin.H{"error": msg}); c.Abort()`. -/
def Context.abort401 (c : Context) (msg : String) : Context :=
  { c with response := some (Response.json 401 (Body.error msg)), aborted := true }

/-- Lines 230-232: `if len(s) > 7 && s[:7] == "Bearer " { s = s[7:] }`. The
seven bytes compared are ASCII, so the byte and character views agree. -/
def trimBearer (tokenString : String) : String :=
  if tokenString.length > 7 ∧ tokenString.data.take 7 = "Bearer ".data then
    String.mk (tokenString.data.drop 7)
  else tokenString

/-- The handler returned by `AuthMiddleware()` (lines 217-253), at clock
reading `now`; `next` is the rest of the chain, run by `c.Next()`. -/
def AuthMiddleware (lib : JwtLib) (now : Nat) (next : Context → Context) (c : Context) : Context :=
  let tokenString := c.authorization
  if tokenString = "" then c.abort401 "Missing token"
  else
    let tokenString := trimBearer tokenString
    match ParseWithClaims lib tokenString jwtKey now with
    | Except.error _ => c.abort401 "Invalid token"
    | Except.ok claims => next (c.set "userID" claims.UserID)

/-! ## Definitions used to state the properties -/

/-- The tasks a response carries (none for an error, a message or a panic). -/
def Response.items : Response → List Task
  | Response.json _ (Body.page tasks _ _ _ _) => tasks
  | Response.json _ (Body.tasks ts) => ts
  | Response.json _ (Body.task t) => [t]
  | _ => []

/-- The store with every copy of the row `T` removed from table `tasks`. -/
def Store.without (s : Store) (T : Task) : Store :=
  { s with tasks := s.tasks.filter (fun r => decide (r ≠ T)) }

/-- Primary key constraint of table `tasks`. -/
def Store.taskKeysUnique (s : Store) : Prop := (s.tasks.map Task.ID).Nodup

/-- Unique index on `users.username`. -/
def Store.usernamesUnique (s : Store) : Prop := (s.users.map User.Username).Nodup

instance (s : Store) : Decidable s.taskKeysUnique := by
  unfold Store.taskKeysUnique; infer_instance

instance (s : Store) : Decidable s.usernamesUnique := by
  unfold Store.usernamesUnique; infer_instance

/-- Concatenation of the items `GetTasks` returns for pages 1, 2, ..., `n` of a
query; `pageStr p` is the text sent as `page` for page `p`. -/
def concatPages (pg : Postgres) (s : Store) (u : Nat) (q : ListQuery) (pageStr : Nat → String)
    (n : Nat) : List Task :=
  ((List.range n).map
    (fun i => (GetTasks pg s u { q with page := some (pageStr (i + 1)) }).items)).flatten

/-! ## Instances of the library parameters, for closed examples -/

/-- A database engine for examples: `ILIKE` as a case-insensitive search for
the pattern without its `%` marks, decimal text as key, and `ORDER BY` with
rows of equal `created_at` in table order in every query. -/
def demoPostgres : Postgres where
  ilike value pattern :=
    let needle := (pattern.data.filter (fun ch => ch ≠ '%')).map Char.toLower
    (value.data.map Char.toLower).tails.any (fun t => needle.isPrefixOf t)
  int8in t :=
    if t.data ≠ [] ∧ t.data.all isDigit then
      some (t.data.foldl (fun n ch => n * 10 + digitVal ch) 0)
    else none
  orderByCreatedAt sort _ _ rows := sortByCreatedAt sort rows
  order_perm := by
    intro sort _ _ rows
    cases sort <;> exact List.perm_insertionSort _ rows
  order_asc := by
    intro _ _ rows
    exact List.sorted_insertionSort _ rows
  order_desc := by
    intro _ _ rows
    exact List.sorted_insertionSort _ rows

/-- A second engine for examples, equal to `demoPostgres` except that a query
with a positive `OFFSET` scans the table backwards, so rows of equal
`created_at` come out in the opposite order there. -/
def tiePostgres : Postgres where
  ilike := demoPostgres.ilike
  int8in := demoPostgres.int8in
  orderByCreatedAt sort offset _ rows :=
    if offset > 0 then sortByCreatedAt sort rows.reverse else sortByCreatedAt sort rows
  order_perm := by
    intro sort offset _ rows
    by_cases h : offset > 0
    · simp only [h, if_true]
      cases sort <;> exact (List.perm_insertionSort _ _).trans (List.reverse_perm rows)
    · simp only [h, if_false]
      cases sort <;> exact List.perm_insertionSort _ rows
  order_asc := by
    intro offset _ rows
    by_cases h : offset > 0
    · simp only [h, if_true]
      exact List.sorted_insertionSort _ _
    · simp only [h, if_false]
      exact List.sorted_insertionSort _ _
  order_desc := by
    intro offset _ rows
    by_cases h : offset > 0
    · simp only [h, if_true]
      exact List.sorted_insertionSort _ _
    · simp only [h, if_false]
      exact List.sorted_insertionSort _ _

/-- Example store for ties: two live tasks of user 1 created at the same
instant. -/
def tieStore : Store where
  users := []
  tasks :=
    [ { ID := 1, CreatedAt := 1000, UpdatedAt := 1000, DeletedAt := none, Title := "A",
        UserID := 1, Status := "todo", DueDate := none, Priority := "medium" },
      { ID := 2, CreatedAt := 1000, UpdatedAt := 1000, DeletedAt := none, Title := "B",
        UserID := 1, Status := "todo", DueDate := none, Priority := "medium" } ]
  userSeq := 0

/-- A password hasher for examples: the hash is the password behind a tag. -/
def demoBcrypt : Bcrypt where
  generateFromPassword password _ := "$2a$" ++ password
  compareHashAndPassword hash password := decide (hash = "$2a$" ++ password)

/-- Number standing for a claim set in the example token format. -/
def demoEncode (c : Claims) : Nat :=
  Encodable.encode (c.UserID, c.ExpiresAt, c.IssuedAt, c.NotBefore)

/-- Inverse of `demoEncode`. -/
def demoDecode (n : Nat) : Option Claims :=
  (Encodable.decode n : Option (Nat × Int × Int × Int)).map
    (fun p => { UserID := p.1, ExpiresAt := p.2.1, IssuedAt := p.2.2.1, NotBefore := p.2.2.2 })

/-- A token library for examples: the payload is a run of `x` as long as the
number of the claims, followed by an empty header and an empty signature
segment; every signature is accepted. It satisfies the laws of `JwtLib`. -/
def demoJwt : JwtLib where
  signedString _ claims := String.mk (List.replicate (demoEncode claims) 'x' ++ ['.', '.'])
  parseUnverified t := if t.data.count '.' = 2 then demoDecode (t.data.count 'x') else none
  verify _ _ := true
  parse_signed := by
    intro key claims
    have h1 : List.count '.' (List.replicate (demoEncode claims) 'x' ++ ['.', '.']) = 2 := by
      simp [List.count_append, List.count_replicate]
    have h2 : List.count 'x' (List.replicate (demoEncode claims) 'x' ++ ['.', '.'])
        = demoEncode claims := by
      simp [List.count_append, List.count_replicate]
    show (if List.count '.' (List.replicate (demoEncode claims) 'x' ++ ['.', '.']) = 2 then
      demoDecode (List.count 'x' (List.replicate (demoEncode claims) 'x' ++ ['.', '.']))
      else none) = some claims
    rw [if_pos h1, h2]
    simp [demoDecode, demoEncode]
  verify_signed := by intro _ _; rfl
  three_segments := by
    intro t claims h
    by_cases hc : t.data.count '.' = 2
    · exact hc
    · simp [hc] at h
  no_space := by
    intro key claims h
    rcases List.mem_append.1 h with h | h
    · exact absurd (List.eq_of_mem_replicate h) (by decide)
    · revert h; decide

/-- Example store: two users, three tasks of user 1 (one soft-deleted) and one
task of user 2. Instants are nanoseconds; 1705330800000000000 is
2024-01-15T15:00:00Z. -/
def demoStore : Store where
  users :=
    [ { ID := 1, CreatedAt := 100, UpdatedAt := 100, DeletedAt := none,
        Username := "alice", Password := "$2a$pw1", Theme := "light" },
      { ID := 2, CreatedAt := 200, UpdatedAt := 200, DeletedAt := none,
        Username := "bob", Password := "$2a$pw2", Theme := "light" } ]
  tasks :=
    [ { ID := 1, CreatedAt := 1000, UpdatedAt := 1000, DeletedAt := none, Title := "buy milk",
        UserID := 1, Status := "todo", DueDate := some 1705330800000000000, Priority := "medium" },
      { ID := 2, CreatedAt := 2000, UpdatedAt := 2000, DeletedAt := none, Title := "write report",
        UserID := 1, Status := "completed", DueDate := none, Priority := "medium" },
      { ID := 3, CreatedAt := 3000, UpdatedAt := 3500, DeletedAt := some 3500, Title := "old",
        UserID := 1, Status := "pending", DueDate := none, Priority := "medium" },
      { ID := 4, CreatedAt := 4000, UpdatedAt := 4000, DeletedAt := none, Title := "bob task",
        UserID := 2, Status := "pending", DueDate := none, Priority := "medium" } ]
  userSeq := 2

/-- Example store for the due filter: two tasks of user 1 due on 2024-01-15,
one at 00:00:00 UTC (1705276800000000000) and one at 15:00:00 UTC. -/
def dueStore : Store where
  users := []
  tasks :=
    [ { ID := 5, CreatedAt := 1000, UpdatedAt := 1000, DeletedAt := none, Title := "midnight",
        UserID := 1, Status := "todo", DueDate := some 1705276800000000000, Priority := "medium" },
      { ID := 6, CreatedAt := 2000, UpdatedAt := 2000, DeletedAt := none, Title := "afternoon",
        UserID := 1, Status := "todo", DueDate := some 1705330800000000000, Priority := "medium" } ]
  userSeq := 0

/-- A query string with no parameters. -/
def emptyQuery : ListQuery :=
  { page := none, limit := none, search := "", sort := none, status := "", due := "" }

/-- A context carrying only an `Authorization` header. -/
def requestWith (authorization : String) : Context :=
  { authorization := authorization, keys := [], aborted := false, response := none }

/-! ## Ownership (UpdateTask, DeleteTask) -/

theorem firstOwnedTask_none_of_other_owner (pg : Postgres) (s : Store) (T : Task) (B : Nat)
    (taskID : String) (hkeys : s.taskKeysUnique) (hT : T ∈ s.tasks) (hB : B ≠ T.UserID)
    (hid : pg.int8in taskID = some T.ID) : firstOwnedTask pg s taskID B = none := by
  have hnil : s.tasks.filter
      (fun t => t.live && decide (t.ID = T.ID) && decide (t.UserID = B)) = [] := by
    rw [List.filter_eq_nil_iff]
    intro t ht hp
    simp only [Bool.and_eq_true, decide_eq_true_eq] at hp
    have : t = T := List.inj_on_of_nodup_map hkeys ht hT hp.1.2
    exact hB (this ▸ hp.2).symm
  simp [firstOwnedTask, hid, hnil]

/-- C1. For every store with unique task keys, every task `T` of the store and
every authenticated user `B` other than the owner of `T`, `UpdateTask` and
`DeleteTask` called with the id of `T` under identity `B` answer
404 "task not found" (an error body, so none of the fields of `T`) and return
the store unchanged. -/
theorem cross_user_update_delete_not_found (pg : Postgres) (s : Store) (T : Task) (B : Nat)
    (taskID : String) (body : Except String TaskInput) (now : Nat)
    (hkeys : s.taskKeysUnique) (hT : T ∈ s.tasks) (hB : B ≠ T.UserID)
    (hid : pg.int8in taskID = some T.ID) :
    UpdateTask pg s B taskID body now = (Response.json 404 (Body.error "task not found"), s) ∧
    DeleteTask pg s B taskID now = (Response.json 404 (Body.error "task not found"), s) := by
  have h := firstOwnedTask_none_of_other_owner pg s T B taskID hkeys hT hB hid
  constructor
  · simp [UpdateTask, h]
  · simp [DeleteTask, h]

/-- Witness for C1: user 2 addresses task 1 of user 1 in the example store. -/
theorem cross_user_update_delete_not_found_witness :
    demoStore.taskKeysUnique ∧
    UpdateTask demoPostgres demoStore 2 "1"
        (Except.ok { Title := "x", Status := "done", DueDate := 0 }) 5000
      = (Response.json 404 (Body.error "task not found"), demoStore) ∧
    DeleteTask demoPostgres demoStore 2 "1" 5000
      = (Response.json 404 (Body.error "task not found"), demoStore) :=
  ⟨by decide,
   cross_user_update_delete_not_found demoPostgres demoStore
     { ID := 1, CreatedAt := 1000, UpdatedAt := 1000, DeletedAt := none, Title := "buy milk",
       UserID := 1, Status := "todo", DueDate := some 1705330800000000000, Priority := "medium" }
     2 "1" (Except.ok { Title := "x", Status := "done", DueDate := 0 }) 5000
     (by decide) (by decide) (by decide) (by decide)⟩

/-! ## The middleware -/

theorem signedString_data_ne_nil (lib : JwtLib) (key : String) (claims : Claims) :
    (lib.signedString key claims).data ≠ [] := by
  intro h
  have := lib.three_segments _ claims (lib.parse_signed key claims)
  rw [h] at this
  exact absurd this (by decide)

theorem trimBearer_signed (lib : JwtLib) (key : String) (claims : Claims) :
    trimBearer (lib.signedString key claims) = lib.signedString key claims := by
  unfold trimBearer
  rw [if_neg]
  rintro ⟨-, h⟩
  have hm : ' ' ∈ (lib.signedString key claims).data.take 7 := by rw [h]; decide
  exact lib.no_space key claims (List.mem_of_mem_take hm)

theorem trimBearer_bearer_signed (lib : JwtLib) (key : String) (claims : Claims) :
    trimBearer ("Bearer " ++ lib.signedString key claims) = lib.signedString key claims := by
  have hne := signedString_data_ne_nil lib key claims
  have hpos : 0 < (lib.signedString key claims).data.length := List.length_pos.2 hne
  have hd : ("Bearer " ++ lib.signedString key claims).data
      = "Bearer ".data ++ (lib.signedString key claims).data := String.data_append _ _
  have h7 : "Bearer ".data.length = 7 := rfl
  unfold trimBearer
  rw [if_pos]
  · rw [hd, List.drop_left' h7]
  · refine ⟨?_, ?_⟩
    · have : ("Bearer " ++ lib.signedString key claims).length
          = ("Bearer " ++ lib.signedString key claims).data.length := rfl
      rw [this, hd, List.length_append, h7]
      omega
    · rw [hd, List.take_left' h7]

theorem ParseWithClaims_login (lib : JwtLib) (userID : Nat) (t now : Nat) :
    ParseWithClaims lib (lib.signedString jwtKey (loginClaims userID t)) jwtKey now
      = if unix (now : Int) ≤ unix ((t : Int) + (hour : Int)) then
          Except.ok (loginClaims userID t)
        else Except.error (JwtError.invalid true false false false) := by
  have hexp : unix ((t : Int) + (hour : Int)) ≠ 0 := by
    simp only [unix, nsPerSecond, hour]; push_cast; omega
  by_cases hle : unix (now : Int) ≤ unix ((t : Int) + (hour : Int))
  · simp [ParseWithClaims, lib.parse_signed, lib.verify_signed, loginClaims, verifyExp,
      verifyIat, verifyNbf, hexp, hle]
  · simp [ParseWithClaims, lib.parse_signed, lib.verify_signed, loginClaims, verifyExp,
      verifyIat, verifyNbf, hexp, hle]

theorem AuthMiddleware_login_token (lib : JwtLib) (userID : Nat) (t now : Nat)
    (next : Context → Context) (c : Context)
    (hc : c.authorization = "Bearer " ++ lib.signedString jwtKey (loginClaims userID t) ∨
      c.authorization = lib.signedString jwtKey (loginClaims userID t)) :
    AuthMiddleware lib now next c
      = if unix (now : Int) ≤ unix ((t : Int) + (hour : Int)) then next (c.set "userID" userID)
        else c.abort401 "Invalid token" := by
  have hne : c.authorization ≠ "" := by
    intro h
    have hd := signedString_data_ne_nil lib jwtKey (loginClaims userID t)
    rcases hc with hc | hc
    · have h1 : ("Bearer " ++ lib.signedString jwtKey (loginClaims userID t)).data = [] := by
        rw [← hc, h]
      rw [String.data_append] at h1
      exact absurd h1 (by simp [hd])
    · exact hd (by rw [← hc, h])
  have htrim : trimBearer c.authorization = lib.signedString jwtKey (loginClaims userID t) := by
    rcases hc with hc | hc
    · rw [hc, trimBearer_bearer_signed]
    · rw [hc, trimBearer_signed]
  unfold AuthMiddleware
  simp only [hne, if_false, htrim, ParseWithClaims_login]
  by_cases hle : unix (now : Int) ≤ unix ((t : Int) + (hour : Int))
  · simp [hle, loginClaims]
  · simp [hle]

/-- C3. When the password check of `Login` passes at instant `t` for the user
row `u` found by name, `Login` answers 200 with a token whose claims carry
`u.ID` and the expiry `t + 1 hour` (in Unix seconds: the second of `t` plus
3600). Presented to `AuthMiddleware` (bare or behind `Bearer `), that token is
accepted with `userID = u.ID` at `t + 59 minutes`, rejected with 401 at
`t + 61 minutes` (the verification error is the expiry one), and at every instant `now` it is accepted exactly when the
Unix second of `now` is at most the expiry: it fails whenever `now > expiresAt`. -/
theorem login_token_expires_after_one_hour (lib : JwtLib) (bc : Bcrypt) (s : Store)
    (input : User) (t : Nat) (next : Context → Context) (c : Context)
    (hpw : bc.compareHashAndPassword (firstUserByName s input.Username).Password input.Password
      = true)
    (hc : c.authorization = "Bearer " ++ lib.signedString jwtKey
          (loginClaims (firstUserByName s input.Username).ID t) ∨
      c.authorization = lib.signedString jwtKey
          (loginClaims (firstUserByName s input.Username).ID t)) :
    Login lib bc s (Except.ok input) t
      = Response.json 200 (Body.token (lib.signedString jwtKey
          (loginClaims (firstUserByName s input.Username).ID t))) ∧
    lib.parseUnverified (lib.signedString jwtKey
        (loginClaims (firstUserByName s input.Username).ID t))
      = some { UserID := (firstUserByName s input.Username).ID,
               ExpiresAt := unix (t : Int) + 3600, IssuedAt := 0, NotBefore := 0 } ∧
    AuthMiddleware lib (t + 59 * minute) next c
      = next (c.set "userID" (firstUserByName s input.Username).ID) ∧
    AuthMiddleware lib (t + 61 * minute) next c = c.abort401 "Invalid token" ∧
    ParseWithClaims lib (lib.signedString jwtKey
        (loginClaims (firstUserByName s input.Username).ID t)) jwtKey (t + 61 * minute)
      = Except.error (JwtError.invalid true false false false) ∧
    (∀ now : Nat, unix (now : Int) > unix (t : Int) + 3600 →
      AuthMiddleware lib now next c = c.abort401 "Invalid token") ∧
    (∀ now : Nat, unix (now : Int) ≤ unix (t : Int) + 3600 →
      AuthMiddleware lib now next c
        = next (c.set "userID" (firstUserByName s input.Username).ID)) := by
  have hexp : unix ((t : Int) + (hour : Int)) = unix (t : Int) + 3600 := by
    simp only [unix, nsPerSecond, hour]; push_cast; omega
  have hmw := fun now => AuthMiddleware_login_token lib
    (firstUserByName s input.Username).ID t now next c hc
  refine ⟨?_, ?_, ?_, ?_, ?_, ?_, ?_⟩
  · simp [Login, hpw]
  · rw [lib.parse_signed, loginClaims, hexp]
  · rw [hmw, if_pos]
    simp only [unix, nsPerSecond, hour, minute]; push_cast; omega
  · rw [hmw, if_neg]
    simp only [unix, nsPerSecond, hour, minute]; push_cast; omega
  · rw [ParseWithClaims_login, if_neg]
    simp only [unix, nsPerSecond, hour, minute]; push_cast; omega
  · intro now h
    rw [hmw, if_neg]
    rw [hexp]; omega
  · intro now h
    rw [hmw, if_pos]
    rw [hexp]; exact h

/-- Witness for C3: alice (user 1 of the example store) logs in with her
password at instant 0 and presents the token behind `Bearer `. -/
theorem login_token_expires_after_one_hour_witness :
    demoBcrypt.compareHashAndPassword (firstUserByName demoStore "alice").Password "pw1" = true ∧
    Login demoJwt demoBcrypt demoStore
        (Except.ok { zeroUser with Username := "alice", Password := "pw1" }) 0
      = Response.json 200 (Body.token (demoJwt.signedString jwtKey (loginClaims 1 0))) ∧
    AuthMiddleware demoJwt (0 + 59 * minute) id
        (requestWith ("Bearer " ++ demoJwt.signedString jwtKey (loginClaims 1 0)))
      = (requestWith ("Bearer " ++ demoJwt.signedString jwtKey (loginClaims 1 0))).set
          "userID" 1 ∧
    AuthMiddleware demoJwt (0 + 61 * minute) id
        (requestWith ("Bearer " ++ demoJwt.signedString jwtKey (loginClaims 1 0)))
      = (requestWith ("Bearer " ++ demoJwt.signedString jwtKey (loginClaims 1 0))).abort401
          "Invalid token" :=
  have h := login_token_expires_after_one_hour demoJwt demoBcrypt demoStore
    { zeroUser with Username := "alice", Password := "pw1" } 0 id
    (requestWith ("Bearer " ++ demoJwt.signedString jwtKey (loginClaims 1 0)))
    (by decide) (Or.inl rfl)
  ⟨by decide, h.1, h.2.2.1, h.2.2.2.1⟩

/-! ## Soft deletion (GetTasks, GetTaskStats, GetDueSoonTasks) -/

theorem filter_without (T : Task) (p : Task → Bool) (l : List Task) (hp : p T = false) :
    (l.filter (fun r => decide (r ≠ T))).filter p = l.filter p := by
  rw [List.filter_filter]
  apply List.filter_congr
  intro x _
  by_cases hx : x = T
  · subst hx; simp [hp]
  · simp [hx]

theorem taskFilter_live (pg : Postgres) (u : Nat) (q : ListQuery) (t : Task)
    (h : taskFilter pg u q t = true) : t.live = true := by
  simp only [taskFilter, Bool.and_eq_true] at h
  exact h.1.1.1.1

theorem live_false_of_deleted (T : Task) (h : T.DeletedAt ≠ none) : T.live = false := by
  cases hd : T.DeletedAt with
  | none => exact absurd hd h
  | some d => simp [Task.live, hd]

theorem taskFilter_deleted (pg : Postgres) (u : Nat) (q : ListQuery) (T : Task)
    (h : T.DeletedAt ≠ none) : taskFilter pg u q T = false := by
  cases hf : taskFilter pg u q T with
  | false => rfl
  | true =>
    have := taskFilter_live pg u q T hf
    rw [live_false_of_deleted T h] at this
    exact absurd this (by decide)

theorem mem_applyOffset {offset : Int} {rows : List Task} {t : Task}
    (h : t ∈ applyOffset offset rows) : t ∈ rows := by
  unfold applyOffset at h
  split at h
  · exact List.mem_of_mem_drop h
  · exact h

theorem mem_applyLimit {limit : Int} {rows : List Task} {t : Task}
    (h : t ∈ applyLimit limit rows) : t ∈ rows := by
  unfold applyLimit at h
  split at h
  · exact List.mem_of_mem_take h
  · exact h

theorem mem_orderByCreatedAt {pg : Postgres} {sort : SortDir} {offset limit : Int}
    {rows : List Task} {t : Task} :
    t ∈ pg.orderByCreatedAt sort offset limit rows ↔ t ∈ rows :=
  (pg.order_perm sort offset limit rows).mem_iff

theorem mem_findTasks {pg : Postgres} {s : Store} {u : Nat} {q : ListQuery} {t : Task}
    (h : t ∈ findTasks pg s u q) : t ∈ s.tasks ∧ taskFilter pg u q t = true := by
  have h2 : t ∈ matchingTasks pg s u q :=
    mem_orderByCreatedAt.1 (mem_applyOffset (mem_applyLimit h))
  exact List.mem_filter.1 h2

theorem items_GetTasks_subset {pg : Postgres} {s : Store} {u : Nat} {q : ListQuery} {t : Task}
    (h : t ∈ (GetTasks pg s u q).items) : t ∈ findTasks pg s u q := by
  unfold GetTasks at h
  simp only at h
  split at h
  · simp [Response.items] at h
  · simpa [Response.items] using h

theorem matchingTasks_without (pg : Postgres) (s : Store) (u : Nat) (q : ListQuery) (T : Task)
    (h : T.DeletedAt ≠ none) : matchingTasks pg (s.without T) u q = matchingTasks pg s u q :=
  filter_without T _ s.tasks (taskFilter_deleted pg u q T h)

theorem GetTasks_without (pg : Postgres) (s : Store) (u : Nat) (q : ListQuery) (T : Task)
    (h : T.DeletedAt ≠ none) : GetTasks pg (s.without T) u q = GetTasks pg s u q := by
  simp only [GetTasks, countTasks, findTasks, sortedTasks, matchingTasks_without pg s u q T h]

theorem GetTaskStats_without (s : Store) (u : Option Nat) (T : Task) (h : T.DeletedAt ≠ none) :
    GetTaskStats (s.without T) u = GetTaskStats s u := by
  have hl := live_false_of_deleted T h
  cases u with
  | none => rfl
  | some uid =>
    simp only [GetTaskStats, countOwned, countByStatus, Store.without]
    rw [filter_without T _ s.tasks (by simp [hl]), filter_without T _ s.tasks (by simp [hl]),
      filter_without T _ s.tasks (by simp [hl])]

theorem dueSoon_without (s : Store) (u : Nat) (now : Nat) (T : Task) (h : T.DeletedAt ≠ none) :
    dueSoon (s.without T) u now = dueSoon s u now := by
  have hl := live_false_of_deleted T h
  simp only [dueSoon, Store.without]
  rw [filter_without T _ s.tasks (by simp [hl])]

theorem mem_dueSoon_live {s : Store} {u : Nat} {now : Nat} {t : Task}
    (h : t ∈ dueSoon s u now) : t.live = true := by
  have h1 := (List.perm_insertionSort _ _).mem_iff.1 h
  have h2 := (List.mem_filter.1 h1).2
  simp only [Bool.and_eq_true] at h2
  exact h2.1.1

theorem markDeleted_not_live (s : Store) (task : Task) (now : Nat) (r : Task)
    (hr : r ∈ (markDeleted s task now).tasks) (hid : r.ID = task.ID) : r.DeletedAt ≠ none := by
  simp only [markDeleted, List.mem_map] at hr
  obtain ⟨r0, -, hr0⟩ := hr
  by_cases hc : r0.ID = task.ID ∧ r0.live
  · rw [if_pos hc] at hr0
    subst hr0
    simp
  · rw [if_neg hc] at hr0
    subst hr0
    intro hnone
    exact hc ⟨hid, by simp [Task.live, hnone]⟩

/-- C4. In every store state, a task row `T` whose deletion marker is set is
never among the items of `GetTasks` (for every user and every query string),
is not counted by it (the whole response, `total` included, is the one
obtained with the row removed from the table), is not counted by
`GetTaskStats`, and is never among the items of `GetDueSoonTasks`. A
`DeleteTask` that finds the task answers 200 and leaves every row with that
key with its deletion marker set, so these exclusions apply to it from then on. -/
theorem soft_deleted_tasks_hidden (pg : Postgres) (s : Store) (T : Task) (u : Nat)
    (q : ListQuery) (now : Nat) (hdel : T.DeletedAt ≠ none) :
    T ∉ (GetTasks pg s u q).items ∧
    GetTasks pg s u q = GetTasks pg (s.without T) u q ∧
    GetTaskStats s (some u) = GetTaskStats (s.without T) (some u) ∧
    T ∉ (GetDueSoonTasks s (some u) now).items ∧
    GetDueSoonTasks s (some u) now = GetDueSoonTasks (s.without T) (some u) now ∧
    (∀ owner taskID now0 task, firstOwnedTask pg s taskID owner = some task →
      DeleteTask pg s owner taskID now0
        = (Response.json 200 (Body.message "task deleted"), markDeleted s task now0) ∧
      ∀ r ∈ (markDeleted s task now0).tasks, r.ID = task.ID → r.DeletedAt ≠ none) := by
  have hl := live_false_of_deleted T hdel
  refine ⟨?_, (GetTasks_without pg s u q T hdel).symm, (GetTaskStats_without s _ T hdel).symm,
    ?_, ?_, ?_⟩
  · intro h
    have := taskFilter_live pg u q T (mem_findTasks (items_GetTasks_subset h)).2
    rw [hl] at this
    exact absurd this (by decide)
  · intro h
    have h1 : T ∈ dueSoon s u now := by simpa [GetDueSoonTasks, Response.items] using h
    have := mem_dueSoon_live h1
    rw [hl] at this
    exact absurd this (by decide)
  · simp only [GetDueSoonTasks, dueSoon_without s u now T hdel]
  · intro owner taskID now0 task hfound
    refine ⟨by simp [DeleteTask, hfound], ?_⟩
    intro r hr hid
    exact markDeleted_not_live s task now0 r hr hid

/-- Witness for C4: task 3 of the example store carries a deletion marker. -/
theorem soft_deleted_tasks_hidden_witness :
    ({ ID := 3, CreatedAt := 3000, UpdatedAt := 3500, DeletedAt := some 3500, Title := "old",
       UserID := 1, Status := "pending", DueDate := none, Priority := "medium" } : Task)
      ∈ demoStore.tasks ∧
    ({ ID := 3, CreatedAt := 3000, UpdatedAt := 3500, DeletedAt := some 3500, Title := "old",
       UserID := 1, Status := "pending", DueDate := none, Priority := "medium" } : Task)
      ∉ (GetTasks demoPostgres demoStore 1 emptyQuery).items ∧
    GetTaskStats demoStore (some 1)
      = GetTaskStats (demoStore.without
          { ID := 3, CreatedAt := 3000, UpdatedAt := 3500, DeletedAt := some 3500,
            Title := "old", UserID := 1, Status := "pending", DueDate := none,
            Priority := "medium" }) (some 1) :=
  have h := soft_deleted_tasks_hidden demoPostgres demoStore
    { ID := 3, CreatedAt := 3000, UpdatedAt := 3500, DeletedAt := some 3500, Title := "old",
      UserID := 1, Status := "pending", DueDate := none, Priority := "medium" }
    1 emptyQuery 0 (by decide)
  ⟨by decide, h.1, h.2.2.1⟩

/-! ## Statistics (GetTaskStats) -/

/-- C10. `GetTaskStats` answers 200 with `completed` the number of live rows of
the user whose status is exactly "completed", `pending` the number whose
status is exactly "pending" and `total_tasks` the number of live rows of the
user; `completed + pending ≤ total_tasks`; and when every task of the user has
a status among `todo`, `in_progress` and `done`, both `completed` and `pending`
are 0. -/
theorem GetTaskStats_counts (s : Store) (u : Nat) :
    ∃ total completed pending : Nat,
      GetTaskStats s (some u)
        = Response.json 200 (Body.stats (total : Int) (completed : Int) (pending : Int)) ∧
      total = s.tasks.countP (fun t => t.DeletedAt.isNone && decide (t.UserID = u)) ∧
      completed = s.tasks.countP
        (fun t => t.DeletedAt.isNone && decide (t.UserID = u) && decide (t.Status = "completed")) ∧
      pending = s.tasks.countP
        (fun t => t.DeletedAt.isNone && decide (t.UserID = u) && decide (t.Status = "pending")) ∧
      completed + pending ≤ total ∧
      ((∀ t ∈ s.tasks, t.UserID = u →
          t.Status = "todo" ∨ t.Status = "in_progress" ∨ t.Status = "done") →
        completed = 0 ∧ pending = 0) := by
  refine ⟨_, _, _, ?_, rfl, rfl, rfl, ?_, ?_⟩
  · simp only [GetTaskStats, countOwned, countByStatus, List.countP_eq_length_filter]
    rfl
  · induction s.tasks with
    | nil => simp
    | cons t ts ih =>
      simp only [List.countP_cons]
      by_cases h1 : t.Status = "completed"
      · have h2 : t.Status ≠ "pending" := by rw [h1]; decide
        by_cases hb : (t.DeletedAt.isNone && decide (t.UserID = u)) = true
        · simp [h1, hb]; omega
        · simp [h1, hb]; omega
      · by_cases h2 : t.Status = "pending"
        · by_cases hb : (t.DeletedAt.isNone && decide (t.UserID = u)) = true
          · simp [h2, hb]; omega
          · simp [h2, hb]; omega
        · simp [h1, h2]; omega
  · intro hall
    constructor
    · rw [List.countP_eq_zero]
      intro t ht hp
      simp only [Bool.and_eq_true, decide_eq_true_eq] at hp
      rcases hall t ht hp.1.2 with h | h | h <;> rw [h] at hp <;> exact absurd hp.2 (by decide)
    · rw [List.countP_eq_zero]
      intro t ht hp
      simp only [Bool.and_eq_true, decide_eq_true_eq] at hp
      rcases hall t ht hp.1.2 with h | h | h <;> rw [h] at hp <;> exact absurd hp.2 (by decide)

/-! ## Registration with a username already taken (Register) -/

theorem createUser_users_of_duplicate (s : Store) (input : User) (now : Nat)
    (hdup : ∃ u ∈ s.users, u.Username = input.Username) :
    (createUser s input now).users = s.users := by
  obtain ⟨u, hu, hname⟩ := hdup
  have hany : s.users.any (fun u => decide (u.Username = input.Username)) = true :=
    List.any_eq_true.2 ⟨u, hu, by simp [hname]⟩
  simp [createUser, hany]

theorem usernamesUnique_insert (s : Store) (row : User) (seq : Nat) (c : Bool)
    (hc : c = false → ∀ u ∈ s.users, u.Username ≠ row.Username) (h : s.usernamesUnique) :
    (if c = true then { s with userSeq := seq }
      else { s with users := s.users ++ [row], userSeq := seq }).usernamesUnique := by
  cases c with
  | true => exact h
  | false =>
    have hnot := hc rfl
    unfold Store.usernamesUnique at h ⊢
    simp only [Bool.false_eq_true, if_false, List.map_append, List.map_cons, List.map_nil]
    rw [List.nodup_append]
    refine ⟨h, List.nodup_singleton _, ?_⟩
    intro a ha hb
    rw [List.mem_singleton] at hb
    obtain ⟨u, hu, hname⟩ := List.mem_map.1 ha
    exact hnot u hu (hname.trans hb)

theorem createUser_usernamesUnique (s : Store) (input : User) (now : Nat)
    (h : s.usernamesUnique) : (createUser s input now).usernamesUnique := by
  unfold createUser
  simp only
  apply usernamesUnique_insert _ _ _ _ _ h
  intro hc u hu hname
  rw [Bool.or_eq_false_iff] at hc
  have : s.users.any (fun u => decide (u.Username = input.Username)) = true :=
    List.any_eq_true.2 ⟨u, hu, by simpa using hname⟩
  rw [hc.1] at this
  exact absurd this (by decide)

/-- C8, as the code behaves. When the store already holds a user with the
username of the request, `Register` adds no user (the unique index rejects the
insert), so a store whose usernames are unique keeps them unique; the result of
the insert is not inspected and the answer is 200 "registered". -/
theorem Register_duplicate_adds_no_user (bc : Bcrypt) (s : Store) (input : User) (now : Nat)
    (hdup : ∃ u ∈ s.users, u.Username = input.Username) :
    (Register bc s (Except.ok input) now).1 = Response.json 200 (Body.message "registered") ∧
    (Register bc s (Except.ok input) now).2.users = s.users ∧
    (s.usernamesUnique → (Register bc s (Except.ok input) now).2.usernamesUnique) := by
  refine ⟨rfl, ?_, ?_⟩
  · exact createUser_users_of_duplicate s _ now hdup
  · intro h
    exact createUser_usernamesUnique s _ now h

/-- Witness for C8 as amended: `alice` registers again in the example store. -/
theorem Register_duplicate_adds_no_user_witness :
    (∃ u ∈ demoStore.users, u.Username = "alice") ∧
    (Register demoBcrypt demoStore
        (Except.ok { zeroUser with Username := "alice", Password := "pw2" }) 5000).2.users
      = demoStore.users :=
  ⟨⟨_, List.mem_cons_self _ _, rfl⟩,
   (Register_duplicate_adds_no_user demoBcrypt demoStore
      { zeroUser with Username := "alice", Password := "pw2" } 5000
      ⟨_, List.mem_cons_self _ _, rfl⟩).2.1⟩

/-- Counterexample to C8 as stated: the example store holds `alice`, and
registering `alice` with another password is answered 200 "registered", not
with a 400. -/
theorem Register_duplicate_answers_200 :
    (∃ u ∈ demoStore.users, u.Username = "alice") ∧
    (Register demoBcrypt demoStore
        (Except.ok { zeroUser with Username := "alice", Password := "pw2" }) 5000).1
      = Response.json 200 (Body.message "registered") ∧
    ∀ body, (Register demoBcrypt demoStore
        (Except.ok { zeroUser with Username := "alice", Password := "pw2" }) 5000).1
      ≠ Response.json 400 body := by
  refine ⟨⟨_, List.mem_cons_self _ _, rfl⟩, rfl, ?_⟩
  intro body h
  have h1 : Response.json 200 (Body.message "registered") = Response.json 400 body := h
  injection h1 with hs _
  exact absurd hs (by decide)

/-! ## The due filter (GetTasks) -/

theorem timeParseDate_empty : timeParseDate "" = none := rfl

theorem taskFilter_due_some (pg : Postgres) (u : Nat) (q : ListQuery) (D : Int)
    (h : timeParseDate q.due = some D) (t : Task) :
    taskFilter pg u q t
      = (taskFilter pg u { q with due := "" } t && decide (t.DueDate = some D)) := by
  have hne : q.due ≠ "" := by
    intro he
    rw [he, timeParseDate_empty] at h
    exact absurd h (by simp)
  simp [taskFilter, h, hne]

theorem taskFilter_due_none (pg : Postgres) (u : Nat) (q : ListQuery)
    (h : timeParseDate q.due = none) :
    taskFilter pg u q = taskFilter pg u { q with due := "" } := by
  funext t
  by_cases he : q.due = ""
  · simp [taskFilter, he]
  · simp [taskFilter, h, he]

/-- C9, as the code behaves. When `due` parses as the date `D` (the instant
00:00:00 UTC of that day), the rows selected by `GetTasks` are exactly the rows
selected without the `due` filter whose due date equals that instant, and
every item returned has that due date; when `due` does not parse, the response
is the one given without a `due` filter. -/
theorem GetTasks_due_exact_instant (pg : Postgres) (s : Store) (u : Nat) (q : ListQuery) :
    (∀ D, timeParseDate q.due = some D →
      matchingTasks pg s u q
        = (matchingTasks pg s u { q with due := "" }).filter
            (fun t => decide (t.DueDate = some D)) ∧
      ∀ t ∈ (GetTasks pg s u q).items, t.DueDate = some D) ∧
    (timeParseDate q.due = none → GetTasks pg s u q = GetTasks pg s u { q with due := "" }) := by
  constructor
  · intro D h
    have hm : matchingTasks pg s u q
        = (matchingTasks pg s u { q with due := "" }).filter
            (fun t => decide (t.DueDate = some D)) := by
      unfold matchingTasks
      rw [List.filter_filter]
      apply List.filter_congr
      intro t _
      rw [taskFilter_due_some pg u q D h t, Bool.and_comm]
    refine ⟨hm, ?_⟩
    intro t ht
    have h1 := (mem_findTasks (items_GetTasks_subset ht)).2
    rw [taskFilter_due_some pg u q D h t] at h1
    simp only [Bool.and_eq_true, decide_eq_true_eq] at h1
    exact h1.2
  · intro h
    have hf := taskFilter_due_none pg u q h
    have hp : pagination { q with due := "" } = pagination q := rfl
    simp only [GetTasks, countTasks, findTasks, sortedTasks, matchingTasks, hf, hp]

/-- Witness for C9 as amended: in the example store for the due filter,
`due=2024-01-15` selects the rows due at that midnight, and `due=tomorrow`,
which does not parse, gives the response of the query without `due`. -/
theorem GetTasks_due_exact_instant_witness :
    timeParseDate "2024-01-15" = some 1705276800000000000 ∧
    matchingTasks demoPostgres dueStore 1 { emptyQuery with due := "2024-01-15" }
      = (matchingTasks demoPostgres dueStore 1 emptyQuery).filter
          (fun t => decide (t.DueDate = some 1705276800000000000)) ∧
    timeParseDate "tomorrow" = none ∧
    GetTasks demoPostgres dueStore 1 { emptyQuery with due := "tomorrow" }
      = GetTasks demoPostgres dueStore 1 emptyQuery :=
  ⟨by decide,
   ((GetTasks_due_exact_instant demoPostgres dueStore 1
      { emptyQuery with due := "2024-01-15" }).1 1705276800000000000 (by decide)).1,
   by decide,
   (GetTasks_due_exact_instant demoPostgres dueStore 1
      { emptyQuery with due := "tomorrow" }).2 (by decide)⟩

/-- Counterexample to C9 as stated: task 1 of the example store is due on
2024-01-15 at 15:00 UTC, so its due date truncated to the day is the parsed
date, and it is listed without the filter; `GET /tasks?due=2024-01-15` returns
no item. -/
theorem GetTasks_due_misses_time_of_day :
    timeParseDate "2024-01-15" = some 1705276800000000000 ∧
    truncDay 1705330800000000000 = 1705276800000000000 ∧
    ({ ID := 1, CreatedAt := 1000, UpdatedAt := 1000, DeletedAt := none, Title := "buy milk",
       UserID := 1, Status := "todo", DueDate := some 1705330800000000000,
       Priority := "medium" } : Task) ∈ (GetTasks demoPostgres demoStore 1 emptyQuery).items ∧
    GetTasks demoPostgres demoStore 1 { emptyQuery with due := "2024-01-15" }
      = Response.json 200 (Body.page [] 0 1 10 0) := by
  refine ⟨by decide, by decide, by decide, by decide⟩

/-! ## Pagination (GetTasks) -/

theorem wrap64_of_fits (x : Int) (h1 : -9223372036854775808 ≤ x)
    (h2 : x ≤ 9223372036854775807) : wrap64 x = x := by
  unfold wrap64; omega

theorem wrap64_wrap64_sub (a b : Int) : wrap64 (wrap64 a - b) = wrap64 (a - b) := by
  unfold wrap64; omega

theorem chunks_flatten {α : Type} (L : Nat) :
    ∀ (n : Nat) (l : List α), l.length ≤ n * L →
      ((List.range n).map (fun i => (l.drop (i * L)).take L)).flatten = l := by
  intro n
  induction n with
  | zero =>
    intro l h
    have : l = [] := List.length_eq_zero.1 (by omega)
    simp [this]
  | succ n ih =>
    intro l h
    rw [List.range_succ_eq_map, List.map_cons, List.map_map, List.flatten_cons]
    have hrest : (List.map ((fun i => List.take L (List.drop (i * L) l)) ∘ Nat.succ)
        (List.range n)).flatten = l.drop L := by
      have hlen : (l.drop L).length ≤ n * L := by
        rw [List.length_drop]
        have : (n + 1) * L = n * L + L := Nat.succ_mul n L
        omega
      have := ih (l.drop L) hlen
      rw [← this]
      congr 1
      apply List.map_congr_left
      intro i _
      have : L + i * L = i.succ * L := by rw [Nat.succ_mul]; omega
      show List.take L (List.drop (i.succ * L) l) = List.take L (List.drop (i * L) (List.drop L l))
      rw [List.drop_drop, this]
    rw [hrest]
    simp

theorem total_pages_value (len L : Nat) (hL : 1 ≤ L) (hfit : len + L - 1 ≤ 9223372036854775807) :
    goDiv (wrap64 (wrap64 ((len : Int) + (L : Int)) - 1)) (L : Int)
      = (((len + L - 1) / L : Nat) : Int) := by
  have hx : wrap64 (wrap64 ((len : Int) + (L : Int)) - 1) = ((len + L - 1 : Nat) : Int) := by
    rw [wrap64_wrap64_sub, wrap64_of_fits]
    · omega
    · omega
    · omega
  have hq : ((len + L - 1) / L : Nat) ≤ len + L - 1 := Nat.div_le_self _ _
  rw [hx, goDiv, Int.tdiv_eq_ediv (by omega) (by omega), ← Int.natCast_div]
  generalize (len + L - 1) / L = k at hq ⊢
  exact wrap64_of_fits _ (by omega) (by omega)

theorem pagination_of_atoi (q : ListQuery) (ps : String) (L : Nat)
    (hlimit : Atoi (q.limit.getD "10") = (L : Int)) :
    pagination { q with page := some ps }
      = (Atoi ps, (L : Int), wrap64 (wrap64 (Atoi ps - 1) * (L : Int))) := by
  simp only [pagination, Option.getD_some, hlimit]

theorem sorted_perm_unique (k : Task → Int) (rows l1 l2 : List Task)
    (hn : (rows.map k).Nodup) (hp1 : l1.Perm rows) (hp2 : l2.Perm rows)
    (h1 : l1.Pairwise (fun a b => k a ≤ k b)) (h2 : l2.Pairwise (fun a b => k a ≤ k b)) :
    l1 = l2 := by
  have strict : ∀ l : List Task, l.Perm rows → l.Pairwise (fun a b => k a ≤ k b) →
      l.Sorted (fun a b => k a < k b) := by
    intro l hp hs
    have hnl : (l.map k).Nodup := (hp.map k).nodup_iff.2 hn
    have hne : l.Pairwise (fun a b => k a ≠ k b) := List.pairwise_map.1 hnl
    exact (hs.and hne).imp (fun h => lt_of_le_of_ne h.1 h.2)
  haveI : IsAntisymm Task (fun a b => k a < k b) :=
    ⟨fun _ _ hab hba => absurd hab (not_lt.2 (le_of_lt hba))⟩
  exact List.eq_of_perm_of_sorted (hp1.trans hp2.symm) (strict l1 hp1 h1) (strict l2 hp2 h2)

theorem sortByCreatedAt_perm (sort : SortDir) (rows : List Task) :
    (sortByCreatedAt sort rows).Perm rows := by
  cases sort <;> exact List.perm_insertionSort _ rows

theorem order_eq_sortByCreatedAt (pg : Postgres) (sort : SortDir) (offset limit : Int)
    (rows : List Task) (hn : (rows.map Task.CreatedAt).Nodup) :
    pg.orderByCreatedAt sort offset limit rows = sortByCreatedAt sort rows := by
  cases sort with
  | asc =>
    exact sorted_perm_unique Task.CreatedAt rows _ _ hn (pg.order_perm _ _ _ rows)
      (sortByCreatedAt_perm _ rows) (pg.order_asc offset limit rows)
      (List.sorted_insertionSort _ rows)
  | desc =>
    have hneg : (rows.map (fun t => -t.CreatedAt)).Nodup := by
      have := hn.map neg_injective
      rwa [List.map_map] at this
    have flip : ∀ l : List Task, l.Pairwise (fun a b => b.CreatedAt ≤ a.CreatedAt) →
        l.Pairwise (fun a b => -a.CreatedAt ≤ -b.CreatedAt) :=
      fun l h => h.imp (fun hab => neg_le_neg hab)
    exact sorted_perm_unique (fun t => -t.CreatedAt) rows _ _ hneg (pg.order_perm _ _ _ rows)
      (sortByCreatedAt_perm _ rows) (flip _ (pg.order_desc offset limit rows))
      (flip _ (List.sorted_insertionSort _ rows))

theorem GetTasks_page_response (pg : Postgres) (s : Store) (u : Nat) (q : ListQuery)
    (ps : String) (L : Nat) (hL : 1 ≤ L) (hlimit : Atoi (q.limit.getD "10") = (L : Int)) :
    GetTasks pg s u { q with page := some ps }
      = Response.json 200 (Body.page (findTasks pg s u { q with page := some ps })
          ((matchingTasks pg s u q).length : Int) (Atoi ps) (L : Int)
          (goDiv (wrap64 (wrap64 (((matchingTasks pg s u q).length : Int) + (L : Int)) - 1))
            (L : Int))) := by
  have hne : ¬ ((L : Int) = 0) := by omega
  have hm : matchingTasks pg s u { q with page := some ps } = matchingTasks pg s u q := rfl
  simp only [GetTasks, pagination_of_atoi q ps L hlimit, hne, if_false, countTasks, hm]

theorem findTasks_page (pg : Postgres) (s : Store) (u : Nat) (q : ListQuery) (ps : String)
    (L i : Nat) (hL : 1 ≤ L) (hlimit : Atoi (q.limit.getD "10") = (L : Int))
    (hps : Atoi ps = ((i + 1 : Nat) : Int)) (hfit : i * L ≤ 9223372036854775807)
    (hties : ((matchingTasks pg s u q).map Task.CreatedAt).Nodup) :
    findTasks pg s u { q with page := some ps }
      = ((sortedTasks pg s u q).drop (i * L)).take L := by
  have hm : matchingTasks pg s u { q with page := some ps } = matchingTasks pg s u q := rfl
  have hi : i ≤ i * L := Nat.le_mul_of_pos_right i hL
  have h1 : wrap64 (Atoi ps - 1) = (i : Int) := by
    rw [hps, wrap64_of_fits]
    · push_cast; omega
    · push_cast; omega
    · push_cast; omega
  have hcast : (i : Int) * (L : Int) = ((i * L : Nat) : Int) := by push_cast; rfl
  have h2 : wrap64 ((i : Int) * (L : Int)) = ((i * L : Nat) : Int) := by
    rw [hcast, wrap64_of_fits]
    · omega
    · omega
  simp only [findTasks, pagination_of_atoi q ps L hlimit, hm, h1, h2, applyLimit, applyOffset,
    order_eq_sortByCreatedAt pg _ _ _ _ hties]
  have hL0 : (L : Int) ≥ 0 := by omega
  rw [if_pos hL0, Int.toNat_ofNat]
  by_cases h0 : ((i * L : Nat) : Int) > 0
  · rw [if_pos h0, Int.toNat_ofNat]
    rfl
  · rw [if_neg h0]
    have : i * L = 0 := by omega
    rw [this, List.drop_zero]
    rfl

/-- C5, as the code behaves. Take a query whose `limit` text reads as `L ≥ 1`,
and let `total` be the number of rows matching its filters. Then
(1) for every page text the response is 200 and its `total` is that number,
whatever the page and the limit;
(2) when `total + L - 1` is within the 64-bit range (the ceiling computed by
the handler does not overflow), the response reports
`total_pages = ceil(total / L)`;
(3) when no two matching rows share a creation time (and `total`, an `int64`
count, is within the 64-bit range), then for page texts that read as the page
numbers the items of pages 1, ..., `ceil(total / L)` concatenate to the full
filtered, sorted result list, whichever way the engine orders ties;
(4) that list is a permutation of the matching rows (every matching task
exactly once), ordered by creation time in the direction asked (descending by
default). -/
theorem pages_concat_full_result (pg : Postgres) (s : Store) (u : Nat) (q : ListQuery)
    (L : Nat) (hL : 1 ≤ L) (hlimit : Atoi (q.limit.getD "10") = (L : Int)) :
    (∀ ps, ∃ items totalPages, GetTasks pg s u { q with page := some ps }
      = Response.json 200 (Body.page items ((matchingTasks pg s u q).length : Int) (Atoi ps)
          (L : Int) totalPages)) ∧
    ((matchingTasks pg s u q).length + L - 1 ≤ 9223372036854775807 →
      ∀ ps, ∃ items, GetTasks pg s u { q with page := some ps }
        = Response.json 200 (Body.page items ((matchingTasks pg s u q).length : Int) (Atoi ps)
            (L : Int) ((((matchingTasks pg s u q).length + L - 1) / L : Nat) : Int))) ∧
    (∀ pageStr : Nat → String,
      ((matchingTasks pg s u q).map Task.CreatedAt).Nodup →
      (matchingTasks pg s u q).length ≤ 9223372036854775807 →
      (∀ p, 1 ≤ p → p ≤ ((matchingTasks pg s u q).length + L - 1) / L →
        Atoi (pageStr p) = (p : Int)) →
      concatPages pg s u q pageStr (((matchingTasks pg s u q).length + L - 1) / L)
        = sortedTasks pg s u q) ∧
    (sortedTasks pg s u q).Perm (matchingTasks pg s u q) ∧
    (q.sort = some SortDir.asc →
      (sortedTasks pg s u q).Sorted (fun a b => a.CreatedAt ≤ b.CreatedAt)) ∧
    (q.sort ≠ some SortDir.asc →
      (sortedTasks pg s u q).Sorted (fun a b => b.CreatedAt ≤ a.CreatedAt)) := by
  have hperm : (sortedTasks pg s u q).Perm (matchingTasks pg s u q) :=
    sortByCreatedAt_perm _ _
  refine ⟨fun ps => ⟨_, _, GetTasks_page_response pg s u q ps L hL hlimit⟩, ?_, ?_, hperm,
    ?_, ?_⟩
  · intro hfit ps
    refine ⟨findTasks pg s u { q with page := some ps }, ?_⟩
    rw [GetTasks_page_response pg s u q ps L hL hlimit, total_pages_value _ L hL hfit]
  · intro pageStr hties hcount hpage
    have hdiv : ((matchingTasks pg s u q).length + L - 1) / L * L
        ≤ (matchingTasks pg s u q).length + L - 1 := Nat.div_mul_le_self _ _
    have hcover : (sortedTasks pg s u q).length
        ≤ ((matchingTasks pg s u q).length + L - 1) / L * L := by
      rw [hperm.length_eq]
      have h1 := Nat.lt_div_mul_add (a := (matchingTasks pg s u q).length + L - 1) (b := L)
        (by omega)
      omega
    rw [← chunks_flatten L _ (sortedTasks pg s u q) hcover]
    unfold concatPages
    congr 1
    apply List.map_congr_left
    intro i hi
    have hi1 : i < ((matchingTasks pg s u q).length + L - 1) / L := List.mem_range.1 hi
    have hiL : i * L ≤ 9223372036854775807 := by
      have h2 : (i + 1) * L ≤ ((matchingTasks pg s u q).length + L - 1) / L * L :=
        Nat.mul_le_mul_right L (by omega)
      have h3 : (i + 1) * L = i * L + L := Nat.succ_mul i L
      omega
    have hps := hpage (i + 1) (by omega) (by omega)
    rw [GetTasks_page_response pg s u q _ L hL hlimit]
    simp only [Response.items]
    exact findTasks_page pg s u q _ L i hL hlimit hps hiL hties
  · intro hs
    simp only [sortedTasks, hs, Option.getD_some, sortByCreatedAt]
    exact List.sorted_insertionSort _ _
  · intro hs
    have : q.sort.getD SortDir.desc = SortDir.desc := by
      cases hq : q.sort with
      | none => rfl
      | some d =>
        cases d with
        | asc => exact absurd hq hs
        | desc => rfl
    simp only [sortedTasks, this, sortByCreatedAt]
    exact List.sorted_insertionSort _ _

/-- Witness for C5 as amended: user 1 of the example store has two live tasks
with different creation times; with `limit=1` the response reports two pages
and the two pages concatenate to the full result. -/
theorem pages_concat_full_result_witness :
    Atoi "1" = 1 ∧
    (matchingTasks demoPostgres demoStore 1 { emptyQuery with limit := some "1" }).length = 2 ∧
    ((matchingTasks demoPostgres demoStore 1 { emptyQuery with limit := some "1" }).map
      Task.CreatedAt).Nodup ∧
    (∃ items, GetTasks demoPostgres demoStore 1
        { emptyQuery with limit := some "1", page := some "2" }
      = Response.json 200 (Body.page items 2 2 1 2)) ∧
    concatPages demoPostgres demoStore 1 { emptyQuery with limit := some "1" }
        (fun p => if p = 1 then "1" else "2") 2
      = sortedTasks demoPostgres demoStore 1 { emptyQuery with limit := some "1" } :=
  have h := pages_concat_full_result demoPostgres demoStore 1
    { emptyQuery with limit := some "1" } 1 (by decide) (by decide)
  ⟨by decide, by decide, by decide, h.2.1 (by decide) "2",
   h.2.2.1 (fun p => if p = 1 then "1" else "2") (by decide) (by decide)
     (by
       intro p h1 h2
       have hb : ((matchingTasks demoPostgres demoStore 1
           { emptyQuery with limit := some "1" }).length + 1 - 1) / 1 = 2 := by decide
       rw [hb] at h2
       interval_cases p <;> decide)⟩

/-- Counterexample to C5 as stated, in two parts.
Ties: the example store for ties holds two tasks A and B of user 1 created at
the same instant; under an engine that orders ties differently once an offset
is given, `limit=1` reports `total = 2` and `total_pages = 2`, page 1 is A and
page 2 is A again, so the concatenation repeats A and misses the matching
task B.
Overflow: with `limit=9223372036854775807` (a limit of at least 1) and the two
live tasks of user 1 in the example store, `total + limit` overflows and
`GetTasks` reports `total_pages = -1`, not `ceil(2 / limit) = 1`, so there is
no page from 1 to the reported `total_pages` and the concatenation over them
is empty although the full result has two items. -/
theorem GetTasks_pages_tie_and_overflow :
    (GetTasks tiePostgres tieStore 1 { emptyQuery with limit := some "1", page := some "1" }
      = Response.json 200 (Body.page
          [ { ID := 1, CreatedAt := 1000, UpdatedAt := 1000, DeletedAt := none, Title := "A",
              UserID := 1, Status := "todo", DueDate := none, Priority := "medium" } ]
          2 1 1 2) ∧
     GetTasks tiePostgres tieStore 1 { emptyQuery with limit := some "1", page := some "2" }
      = Response.json 200 (Body.page
          [ { ID := 1, CreatedAt := 1000, UpdatedAt := 1000, DeletedAt := none, Title := "A",
              UserID := 1, Status := "todo", DueDate := none, Priority := "medium" } ]
          2 2 1 2) ∧
     ({ ID := 2, CreatedAt := 1000, UpdatedAt := 1000, DeletedAt := none, Title := "B",
        UserID := 1, Status := "todo", DueDate := none, Priority := "medium" } : Task)
       ∈ matchingTasks tiePostgres tieStore 1 { emptyQuery with limit := some "1" } ∧
     ({ ID := 2, CreatedAt := 1000, UpdatedAt := 1000, DeletedAt := none, Title := "B",
        UserID := 1, Status := "todo", DueDate := none, Priority := "medium" } : Task)
       ∉ concatPages tiePostgres tieStore 1 { emptyQuery with limit := some "1" }
           (fun p => if p = 1 then "1" else "2") 2 ∧
     concatPages tiePostgres tieStore 1 { emptyQuery with limit := some "1" }
         (fun p => if p = 1 then "1" else "2") 2
       ≠ sortedTasks tiePostgres tieStore 1 { emptyQuery with limit := some "1" }) ∧
    (1 ≤ Atoi "9223372036854775807" ∧
     GetTasks demoPostgres demoStore 1 { emptyQuery with limit := some "9223372036854775807" }
      = Response.json 200 (Body.page
          [ { ID := 2, CreatedAt := 2000, UpdatedAt := 2000, DeletedAt := none,
              Title := "write report", UserID := 1, Status := "completed", DueDate := none,
              Priority := "medium" },
            { ID := 1, CreatedAt := 1000, UpdatedAt := 1000, DeletedAt := none,
              Title := "buy milk", UserID := 1, Status := "todo",
              DueDate := some 1705330800000000000, Priority := "medium" } ]
          2 1 9223372036854775807 (-1)) ∧
     concatPages demoPostgres demoStore 1
         { emptyQuery with limit := some "9223372036854775807" } (fun _ => "1") (Int.toNat (-1))
       = [] ∧
     (sortedTasks demoPostgres demoStore 1
         { emptyQuery with limit := some "9223372036854775807" }).length = 2) := by
  refine ⟨⟨by decide, by decide, by decide, by decide, by decide⟩,
    ⟨by decide, by decide, by decide, by decide⟩⟩

/-! ## Unguarded page and limit (GetTasks) -/

/-- C6, the code at a failing input. With `page=0` (and likewise a non-numeric
page) `GetTasks` keeps page 0, hands the offset -10 to the query and reports
`"page": 0`; with `page=abc&limit=-5` it keeps 0 and -5. The guards of
`GetTasksWithPagination` turn the same texts into page 1, limit 10, offset 0. -/
theorem GetTasks_page_not_normalized :
    pagination { emptyQuery with page := some "0" } = (0, 10, -10) ∧
    pagination { emptyQuery with page := some "abc", limit := some "-5" } = (0, -5, 5) ∧
    GetTasks demoPostgres demoStore 1 { emptyQuery with page := some "0" }
      = Response.json 200 (Body.page
          [ { ID := 2, CreatedAt := 2000, UpdatedAt := 2000, DeletedAt := none,
              Title := "write report", UserID := 1, Status := "completed", DueDate := none,
              Priority := "medium" },
            { ID := 1, CreatedAt := 1000, UpdatedAt := 1000, DeletedAt := none,
              Title := "buy milk", UserID := 1, Status := "todo",
              DueDate := some 1705330800000000000, Priority := "medium" } ]
          2 0 10 1) ∧
    paginationGuarded (some "0") none = (1, 10, 0) ∧
    paginationGuarded (some "abc") (some "-5") = (1, 10, 0) := by
  refine ⟨by decide, by decide, by decide, by decide, by decide⟩

/-- C7, the code at a failing input. With `limit=0`, and with a `limit` that is
not a number (read as 0), the division in `total_pages` panics and `GetTasks`
writes no 200 response. The guard of `GetTasksWithPagination` turns the same
texts into limit 10. -/
theorem GetTasks_limit_zero_panics :
    GetTasks demoPostgres demoStore 1 { emptyQuery with limit := some "0" }
      = Response.panicked "runtime error: integer divide by zero" ∧
    GetTasks demoPostgres demoStore 1 { emptyQuery with limit := some "abc" }
      = Response.panicked "runtime error: integer divide by zero" ∧
    paginationGuarded none (some "0") = (1, 10, 0) ∧
    paginationGuarded none (some "abc") = (1, 10, 0) := by
  refine ⟨by decide, by decide, by decide, by decide⟩

end Gotasker
